import Mathlib

/-!
Verification of the shipping-schedule organizer (src/app.py) against its
natural-language specification.  The Python source is shallowly embedded:
strings are Lean Strings (operated on through their character lists),
dates are encoded as days-since-1970-01-01 (Int) with the Gregorian
conversions written out, and every fallible Python operation is modelled
as an Option-returning total function.
-/

namespace Shipping

/-! ## Character and string helpers (Python str.strip / upper / lower / in / endswith) -/

/-- Python whitespace for str.strip / str.split. -/
def wsChar (c : Char) : Bool :=
  c = ' ' || c = '\t' || c = '\n' || c = '\r' || c = '\x0b' || c = '\x0c'

def asciiUpperChar (c : Char) : Char :=
  if 'a' ≤ c && c ≤ 'z' then Char.ofNat (c.toNat - 32) else c

def asciiLowerChar (c : Char) : Char :=
  if 'A' ≤ c && c ≤ 'Z' then Char.ofNat (c.toNat + 32) else c

/-- Python str.strip() on a character list. -/
def pyStrip (cs : List Char) : List Char :=
  ((cs.dropWhile wsChar).reverse.dropWhile wsChar).reverse

def pyUpper (cs : List Char) : List Char := cs.map asciiUpperChar

def pyLower (cs : List Char) : List Char := cs.map asciiLowerChar

def strOf (cs : List Char) : String := ⟨cs⟩

def trimStr (s : String) : String := strOf (pyStrip s.data)

def upperStr (s : String) : String := strOf (pyUpper s.data)

def lowerStr (s : String) : String := strOf (pyLower s.data)

/-- Does hay start with needle? -/
def leadsWith : List Char → List Char → Bool
  | [], _ => true
  | _ :: _, [] => false
  | a :: as, b :: bs => a = b && leadsWith as bs

/-- Python `needle in hay` (substring containment). -/
def isInfixChars (needle : List Char) : List Char → Bool
  | [] => leadsWith needle []
  | hay@(_ :: t) => leadsWith needle hay || isInfixChars needle t

def containsStr (hay needle : String) : Bool := isInfixChars needle.data hay.data

/-- Python hay.endswith(needle). -/
def trailsWith (needle hay : List Char) : Bool :=
  leadsWith needle.reverse hay.reverse

def endsWithStr (hay needle : String) : Bool := trailsWith needle.data hay.data

/-- First whitespace-separated token of Python s.split(). -/
def firstToken (cs : List Char) : List Char :=
  (cs.dropWhile wsChar).takeWhile (fun c => !wsChar c)

def allDigits (cs : List Char) : Bool := !cs.isEmpty && cs.all Char.isDigit

/-- Join a list of strings with single spaces (Python " ".join). -/
def joinSpace : List String → List Char
  | [] => []
  | [s] => s.data
  | s :: rest => s.data ++ ' ' :: joinSpace rest

/-! ## Date parsing: CPython strptime for the five formats of safe_date_str

CPython strptime compiles a format to a regex:
  %Y = four digits, %m = (1[0-2]|0[1-9]|[1-9]), %d = (3[01]|[12]\d|0[1-9]|[1-9]),
and requires the whole string to be consumed; afterwards the datetime
constructor validates the calendar date (raising ValueError on e.g. Feb 30).
Alternatives are tried in regex order with backtracking, which the
candidate lists below reproduce. -/

def digitVal (c : Char) : Nat := c.toNat - 48

/-- Regex %Y: exactly four digits. -/
def candsYear : List Char → List (Nat × List Char)
  | a :: b :: c :: d :: rest =>
    if a.isDigit && b.isDigit && c.isDigit && d.isDigit then
      [(digitVal a * 1000 + digitVal b * 100 + digitVal c * 10 + digitVal d, rest)]
    else []
  | _ => []

/-- Regex %m alternatives in order: 1[0-2] | 0[1-9] | [1-9]. -/
def candsMonth (cs : List Char) : List (Nat × List Char) :=
  (match cs with
   | '1' :: b :: rest =>
     if '0' ≤ b && b ≤ '2' then [(10 + digitVal b, rest)] else []
   | _ => []) ++
  (match cs with
   | '0' :: b :: rest =>
     if '1' ≤ b && b ≤ '9' then [(digitVal b, rest)] else []
   | _ => []) ++
  (match cs with
   | a :: rest =>
     if '1' ≤ a && a ≤ '9' then [(digitVal a, rest)] else []
   | _ => [])

/-- Regex %d alternatives in order: 3[01] | [12]\d | 0[1-9] | [1-9]. -/
def candsDay (cs : List Char) : List (Nat × List Char) :=
  (match cs with
   | '3' :: b :: rest =>
     if b = '0' || b = '1' then [(30 + digitVal b, rest)] else []
   | _ => []) ++
  (match cs with
   | a :: b :: rest =>
     if (a = '1' || a = '2') && b.isDigit then [(digitVal a * 10 + digitVal b, rest)] else []
   | _ => []) ++
  (match cs with
   | '0' :: b :: rest =>
     if '1' ≤ b && b ≤ '9' then [(digitVal b, rest)] else []
   | _ => []) ++
  (match cs with
   | a :: rest =>
     if '1' ≤ a && a ≤ '9' then [(digitVal a, rest)] else []
   | _ => [])

inductive DTok | Y | M | D
deriving DecidableEq

def runCands : DTok → List Char → List (Nat × List Char)
  | DTok.Y => candsYear
  | DTok.M => candsMonth
  | DTok.D => candsDay

/-- A strptime format of shape tok sep tok sep tok (covers all five formats used). -/
structure DFmt where
  t1 : DTok
  sep : Char
  t2 : DTok
  t3 : DTok
deriving DecidableEq

def pickTok (k : DTok) (ps : List (DTok × Nat)) : Nat :=
  match ps.find? (fun p => p.1 = k) with
  | some p => p.2
  | none => 0

/-- Full-regex match with backtracking; returns (year, month, day) of the
first full match in regex preference order, before calendar validation. -/
def matchFmt (f : DFmt) (cs : List Char) : Option (Nat × Nat × Nat) :=
  (runCands f.t1 cs).findSome? fun p1 =>
    match p1.2 with
    | c1 :: r1 =>
      if c1 = f.sep then
        (runCands f.t2 r1).findSome? fun p2 =>
          match p2.2 with
          | c2 :: r2 =>
            if c2 = f.sep then
              (runCands f.t3 r2).findSome? fun p3 =>
                if p3.2.isEmpty then
                  let ps := [(f.t1, p1.1), (f.t2, p2.1), (f.t3, p3.1)]
                  some (pickTok DTok.Y ps, pickTok DTok.M ps, pickTok DTok.D ps)
                else none
            else none
          | [] => none
      else none
    | [] => none

def isLeap (y : Nat) : Bool := y % 4 = 0 && (y % 100 ≠ 0 || y % 400 = 0)

def daysInMonth (y m : Nat) : Nat :=
  if m = 2 then (if isLeap y then 29 else 28)
  else if m = 4 || m = 6 || m = 9 || m = 11 then 30
  else 31

/-- The datetime(...) constructor validation applied after the regex match. -/
def validYMD : Nat × Nat × Nat → Bool
  | (y, m, d) =>
    1 ≤ y && y ≤ 9999 && 1 ≤ m && m ≤ 12 && 1 ≤ d && d ≤ daysInMonth y m

/-- One datetime.strptime(val, fmt) attempt: regex match then validation;
ValueError (= none) on either failure. -/
def tryFmt (f : DFmt) (cs : List Char) : Option (Nat × Nat × Nat) :=
  match matchFmt f cs with
  | some t => if validYMD t then some t else none
  | none => none

def digitChar (d : Nat) : Char := Char.ofNat (48 + d)

def pad2 (n : Nat) : List Char := [digitChar (n / 10 % 10), digitChar (n % 10)]

def pad4 (n : Nat) : List Char :=
  [digitChar (n / 1000 % 10), digitChar (n / 100 % 10), digitChar (n / 10 % 10),
   digitChar (n % 10)]

/-- strftime("%Y/%m/%d") rendering. -/
def renderYMD : Nat × Nat × Nat → String
  | (y, m, d) => strOf (pad4 y ++ '/' :: pad2 m ++ '/' :: pad2 d)

/-- "%Y/%m/%d" -/
def fmtYMDslash : DFmt := ⟨DTok.Y, '/', DTok.M, DTok.D⟩
/-- "%Y-%m-%d" -/
def fmtYMDdash : DFmt := ⟨DTok.Y, '-', DTok.M, DTok.D⟩
/-- "%d/%m/%Y" -/
def fmtDMYslash : DFmt := ⟨DTok.D, '/', DTok.M, DTok.Y⟩
/-- "%m/%d/%Y" -/
def fmtMDYslash : DFmt := ⟨DTok.M, '/', DTok.D, DTok.Y⟩
/-- "%d-%m-%Y" -/
def fmtDMYdash : DFmt := ⟨DTok.D, '-', DTok.M, DTok.Y⟩

/-- safe_date_str (src/app.py lines 54-75), string branch: strip, then try the
five formats in source order, returning the first strptime success rendered
with strftime("%Y/%m/%d"); on total failure return the stripped text. -/
def safe_date_str (s : String) : String :=
  let v := trimStr s
  match tryFmt fmtYMDslash v.data with
  | some t => renderYMD t
  | none =>
    match tryFmt fmtYMDdash v.data with
    | some t => renderYMD t
    | none =>
      match tryFmt fmtDMYslash v.data with
      | some t => renderYMD t
      | none =>
        match tryFmt fmtMDYslash v.data with
        | some t => renderYMD t
        | none =>
          match tryFmt fmtDMYdash v.data with
          | some t => renderYMD t
          | none => v

/-- The candidate formats in the priority order stated by the spec. -/
def specFormats : List DFmt :=
  [fmtYMDslash, fmtYMDdash, fmtDMYslash, fmtMDYslash, fmtDMYdash]

/-- The Date Normalizer as the spec words it: try the candidate formats in
fixed priority order, first success wins and is rendered canonically,
otherwise the (trimmed) original text is returned unchanged. -/
def dateNormalizerSpec (s : String) : String :=
  match specFormats.findSome? (fun f => tryFmt f (trimStr s).data) with
  | some t => renderYMD t
  | none => trimStr s

/-! ## Gregorian calendar: dates as days since 1970-01-01

Python datetime dates are embedded as Int day counts; subtraction of a
timedelta(days=k) is integer subtraction, and `.weekday()` (Monday = 0)
becomes arithmetic mod 7 calibrated at 1970-01-01 being a Thursday. -/

/-- Days from 1970-01-01 to the given civil date (standard era-based formula). -/
def daysFromCivil (y m d : Nat) : Int :=
  let y2 := if m ≤ 2 then y - 1 else y
  let era := y2 / 400
  let yoe := y2 - era * 400
  let mp := if m > 2 then m - 3 else m + 9
  let doy := (153 * mp + 2) / 5 + (d - 1)
  let doe := yoe * 365 + yoe / 4 - yoe / 100 + doy
  (((era * 146097 + doe : Nat) : Int)) - 719468

/-- Inverse of daysFromCivil for in-range days (used for strftime of datetimes). -/
def civilFromDays (z : Int) : Nat × Nat × Nat :=
  let n := (z + 719468).toNat
  let era := n / 146097
  let doe := n % 146097
  let yoe := (doe - doe / 1460 + doe / 36524 - doe / 146097) / 365
  let y := yoe + era * 400
  let doy := doe - (365 * yoe + yoe / 4 - yoe / 100)
  let mp := (5 * doy + 2) / 153
  let d := doy - (153 * mp + 2) / 5 + 1
  let m := if mp < 10 then mp + 3 else mp - 9
  (if m ≤ 2 then y + 1 else y, m, d)

/-- datetime.weekday(): Monday = 0 … Sunday = 6. -/
def pyWeekday (d : Int) : Int := (d + 3) % 7

/-- strftime("%Y/%m/%d") of an embedded datetime. -/
def renderDay (d : Int) : String := renderYMD (civilFromDays d)

/-- datetime.strptime(s, "%Y/%m/%d") mapped down to a day number. -/
def parseDay (s : String) : Option Int :=
  (tryFmt fmtYMDslash s.data).map (fun t => daysFromCivil t.1 t.2.1 t.2.2)

/-! ## DAY_TO_NUM and days_back_from_etd (src/app.py lines 40, 77-88) -/

def DAY_TO_NUM (s : String) : Option Int :=
  if s = "MON" then some 0
  else if s = "TUE" then some 1
  else if s = "WED" then some 2
  else if s = "THU" then some 3
  else if s = "FRI" then some 4
  else if s = "SAT" then some 5
  else if s = "SUN" then some 6
  else none

/-- day_name.strip().upper()[:3], the key the code looks up in DAY_TO_NUM. -/
def dayKey (s : String) : String := strOf ((pyUpper (pyStrip s.data)).take 3)

/-- days_back_from_etd: most recent occurrence of the named weekday on or
before the ETD; an unrecognized name returns the ETD unchanged. -/
def days_back_from_etd (etd : Int) (dayName : String) : Int :=
  match DAY_TO_NUM (dayKey dayName) with
  | none => etd
  | some t => etd - (pyWeekday etd - t) % 7

/-! ## Canonical record model and shared constants -/

def POD_LIST : List String := ["HONG KONG", "SHEKOU", "KAOHSIUNG", "TAICHUNG"]

def OUTPUT_COLS : List String :=
  ["POL", "POD", "Vessel", "Voyage", "ETD", "ETA", "T/T Time", "CY Cut-off", "SI Cut-off"]

def CARRIER_LIST : List String := ["CNC", "TSL", "IAL", "KMTC", "YML"]

/-- One output row dict; the Carrier column added later by the store is the
carrier field (empty while still inside a parser). -/
structure SRec where
  carrier : String := ""
  pol : String
  pod : String
  vessel : String
  voyage : String
  etd : String
  eta : String
  tt : String
  cy : String
  si : String
deriving DecidableEq

/-- The spec's natural key (carrier, pol, pod, vessel, voyage, etd). -/
def natKey (r : SRec) : String × String × String × String × String × String :=
  (r.carrier, r.pol, r.pod, r.vessel, r.voyage, r.etd)

/-- normalize_pod (src/app.py lines 46-52). -/
def normalize_pod (s : String) : String :=
  let u := upperStr (trimStr s)
  match POD_LIST.find? (fun std => containsStr u std) with
  | some std => std
  | none => u

/-! ## CNC CSV row mapping (src/app.py lines 125-147) -/

/-- T/T normalization of the CNC paths: suffix " days" on any non-empty value
not already ending (case-insensitively) in "day" or "days". -/
def cncTT (tt : String) : String :=
  if tt ≠ "" ∧ endsWithStr (lowerStr tt) "day" = false ∧ endsWithStr (lowerStr tt) "days" = false
  then tt ++ " days"
  else tt

/-- Per-row body of the parse_cnc CSV loop, taking the cell texts
str(row.get(...)) for the mapped columns; none = row skipped. -/
def cncRow (pol pod vessel voyage etd eta tt cy si : String) : Option SRec :=
  let pol2 := upperStr (trimStr pol)
  let pod2 := normalize_pod pod
  if pod2 ∉ POD_LIST then none
  else if containsStr pol2 "HAIPHONG" = false then none
  else
    some { pol := "HAIPHONG", pod := pod2,
           vessel := trimStr vessel, voyage := trimStr voyage,
           etd := safe_date_str etd, eta := safe_date_str eta,
           tt := cncTT (trimStr tt), cy := trimStr cy, si := trimStr si }

/-! ## TSL cut-off reference table (src/app.py lines 326-372, 471-478) -/

structure CutRule where
  etd_day : String
  cy_day : String
  cy_time : String
  si_day : String
  si_time : String
deriving DecidableEq

/-- row[j].strip() if j < len(row) else "". -/
def cellAt (row : List String) (j : Nat) : String := trimStr (row.getD j "")

def optCellUpper (row : List String) : Option Nat → String
  | some j => upperStr (cellAt row j)
  | none => ""

def rowAllEmpty (row : List String) : Bool := row.all (fun c => c = "")

/-- Regex \d{1,2}:\d{2} at one position: two digits preferred, then one. -/
def timeLong : List Char → Option (List Char)
  | a :: b :: ':' :: c :: d :: _ =>
    if a.isDigit && b.isDigit && c.isDigit && d.isDigit then some [a, b, ':', c, d] else none
  | _ => none

def timeShort : List Char → Option (List Char)
  | a :: ':' :: c :: d :: _ =>
    if a.isDigit && c.isDigit && d.isDigit then some [a, ':', c, d] else none
  | _ => none

/-- Leftmost re.search match of \d{1,2}:\d{2}. -/
def findTime : List Char → Option (List Char)
  | [] => none
  | a :: t =>
    match timeLong (a :: t) with
    | some m => some m
    | none =>
      match timeShort (a :: t) with
      | some m => some m
      | none => findTime t

def isWordChar (c : Char) : Bool := c.isAlpha || c.isDigit || c = '_'

def dayNames : List String := ["MON", "TUE", "WED", "THU", "FRI", "SAT", "SUN"]

def isDayTriple (a b c : Char) : Bool := dayNames.contains (strOf [a, b, c])

/-- Leftmost re.search match of \b(MON|TUE|WED|THU|FRI|SAT|SUN)\b. -/
def findDayTok : Option Char → List Char → Option String
  | prev, a :: b :: c :: rest =>
    if isDayTriple a b c
        && (match prev with | none => true | some p => !isWordChar p)
        && (match rest with | [] => true | r :: _ => !isWordChar r) then
      some (strOf [a, b, c])
    else findDayTok (some a) (b :: c :: rest)
  | _, _ => none

/-- _parse_time_day: locate an HH:MM time and a three-letter weekday token,
either component empty when absent. -/
def parse_time_day (raw : String) : String × String :=
  let cs := pyUpper (pyStrip raw.data)
  (match findTime cs with | some m => strOf m | none => "",
   match findDayTok none cs with | some m => m | none => "")

/-- Python dict insertion: overwrite the key in place, else append. -/
def upsertRule (rules : List (String × CutRule)) (k : String) (v : CutRule) :
    List (String × CutRule) :=
  match rules with
  | [] => [(k, v)]
  | p :: rest => if p.1 = k then (k, v) :: rest else p :: upsertRule rest k v

def lookupRule : List (String × CutRule) → String → Option CutRule
  | [], _ => none
  | p :: rest, k => if p.1 = k then some p.2 else lookupRule rest k

def ruleOfRow (etdCol cyCol siCol : Option Nat) (row : List String) : CutRule :=
  let etdRaw := optCellUpper row etdCol
  let td1 := parse_time_day (optCellUpper row cyCol)
  let td2 := parse_time_day (optCellUpper row siCol)
  { etd_day := strOf (etdRaw.data.take 3),
    cy_day := td1.2, cy_time := td1.1, si_day := td2.2, si_time := td2.1 }

/-- The rule-reading loop over range(idx+1, min(idx+30, len(data))): at most
29 rows are visited (the fuel), a fully-empty row stops the scan, a row with
an empty service-name cell is skipped, and every other row upserts a rule
keyed by its uppercased service name. -/
def readRuleRows (svcCol : Nat) (etdCol cyCol siCol : Option Nat) :
    Nat → List (List String) → List (String × CutRule) → List (String × CutRule)
  | 0, _, acc => acc
  | _ + 1, [], acc => acc
  | fuel + 1, row :: rest, acc =>
    if rowAllEmpty row then acc
    else
      let svc := upperStr (cellAt row svcCol)
      if svc = "" then readRuleRows svcCol etdCol cyCol siCol fuel rest acc
      else
        readRuleRows svcCol etdCol cyCol siCol fuel rest
          (upsertRule acc svc (ruleOfRow etdCol cyCol siCol row))

/-- Scan for the row containing the "SERVICE NAME" section marker. -/
def findMarkerIdx (data : List (List String)) : Option Nat :=
  data.findIdx? (fun row => isInfixChars "SERVICE NAME".data (joinSpace (row.map upperStr)))

def noSpace (s : String) : String := strOf (s.data.filter (fun c => c ≠ ' '))

def svcColOf (hdr : List String) : Nat :=
  (hdr.findIdx? (fun c => containsStr c "SERVICE" && containsStr c "NAME")).getD 0

def etdColOf (hdr : List String) : Option Nat :=
  (hdr.findIdx? (fun c =>
      containsStr c "ETD" && (containsStr c "HPH" || containsStr c "HAI" || containsStr c "DEP"))).orElse
    (fun _ => hdr.findIdx? (fun c => containsStr c "ETD HPH" || containsStr c "ETD"))

def cyColOf (hdr : List String) : Option Nat :=
  (hdr.findIdx? (fun c => (containsStr c "CY" && containsStr (noSpace c) "CUT") || c = "CY")).orElse
    (fun _ => hdr.findIdx? (fun c => containsStr c "CY"))

def siColOf (hdr : List String) : Option Nat :=
  (hdr.findIdx? (fun c =>
      containsStr c "SUBMIT" || (containsStr c "SI" && containsStr c "VGM") || c = "SI/VGM")).orElse
    (fun _ => hdr.findIdx? (fun c => containsStr c "SI" || containsStr c "VGM"))

/-- The SERVICE NAME reference-table construction of _parse_tsl_sheet. -/
def buildServiceRules (data : List (List String)) : List (String × CutRule) :=
  match findMarkerIdx data with
  | none => []
  | some i =>
    let hdr := (data.getD i []).map upperStr
    readRuleRows (svcColOf hdr) (etdColOf hdr) (cyColOf hdr) (siColOf hdr)
      29 (data.drop (i + 1)) []

/-! ## TSL data rows (src/app.py lines 374-469) -/

/-- re.sub(r"\(.*?\)", "", s): drop each non-greedy bracketed span; an
opening bracket with no close before a newline stays. -/
def scanClose : List Char → Option (List Char)
  | [] => none
  | ')' :: r => some r
  | '\n' :: _ => none
  | _ :: r => scanClose r

def removeBracketsAux : Nat → List Char → List Char
  | 0, cs => cs
  | _ + 1, [] => []
  | fuel + 1, '(' :: rest =>
    (match scanClose rest with
     | some rem => removeBracketsAux fuel rem
     | none => '(' :: removeBracketsAux fuel rest)
  | fuel + 1, c :: rest => c :: removeBracketsAux fuel rest

def removeBrackets (cs : List Char) : List Char := removeBracketsAux cs.length cs

/-- re.search(r"\((\d+)\s*days?\)", s, IGNORECASE): the captured digit group. -/
def ttBracketAt (cs : List Char) : Option (List Char) :=
  match cs with
  | '(' :: rest =>
    let digits := rest.takeWhile Char.isDigit
    if digits.isEmpty then none
    else
      let rest3 := (rest.dropWhile Char.isDigit).dropWhile wsChar
      match rest3 with
      | d :: a :: y :: rest4 =>
        if (d = 'd' || d = 'D') && (a = 'a' || a = 'A') && (y = 'y' || y = 'Y') then
          match rest4 with
          | ')' :: _ => some digits
          | s :: ')' :: _ => if s = 's' || s = 'S' then some digits else none
          | _ => none
        else none
      | _ => none
  | _ => none

def ttBracketSearch : List Char → Option (List Char)
  | [] => none
  | a :: t =>
    match ttBracketAt (a :: t) with
    | some m => some m
    | none => ttBracketSearch t

/-- T/T of a TSL data row: bracketed "(n days)" annotation wins, else the
non-negative ETA−ETD day difference, else blank. -/
def tslTT (etdD : Int) (etaRaw etaStr : String) : String :=
  match ttBracketSearch etaRaw.data with
  | some ds => strOf ds ++ " days"
  | none =>
    if etaStr ≠ "" then
      match parseDay etaStr with
      | some etaD => if etaD - etdD ≥ 0 then toString (etaD - etdD).toNat ++ " days" else ""
      | none => ""
    else ""

/-- One data row of _parse_tsl_sheet (column indices, pod columns, rules and
the date-range window supplied by the surrounding sheet scan). -/
def tslProcessRow (cService : Option Nat) (cVessel cVoyage cEtd cEta : Nat)
    (podCols : List (String × Nat)) (rules : List (String × CutRule))
    (startD endD : Int) (row : List String) : List SRec :=
  let vessel := cellAt row cVessel
  let voyage := cellAt row cVoyage
  let etdRaw := cellAt row cEtd
  let etaRaw := cellAt row cEta
  if vessel = "" ∨ voyage = "" ∨ etdRaw = "" then []
  else if upperStr vessel = "VESSEL" ∨ upperStr vessel = "VESSEL NAME" then []
  else
    let etdStr := safe_date_str etdRaw
    if etdStr = "" then []
    else
      match tryFmt fmtYMDslash etdStr.data with
      | none => []
      | some t =>
        let etdD := daysFromCivil t.1 t.2.1 t.2.2
        if etdD < startD ∨ etdD > endD then []
        else
          let etaStr := safe_date_str (trimStr (strOf (removeBrackets etaRaw.data)))
          let ttStr := tslTT etdD etaRaw etaStr
          let svcName := match cService with | some j => upperStr (cellAt row j) | none => ""
          let cuts :=
            match lookupRule rules svcName with
            | none => ("", "")
            | some rule =>
              (if rule.cy_day ≠ "" then
                 renderDay (days_back_from_etd etdD rule.cy_day) ++
                   (if rule.cy_time ≠ "" then " " ++ rule.cy_time else "")
               else "",
               if rule.si_day ≠ "" then
                 renderDay (days_back_from_etd etdD rule.si_day) ++
                   (if rule.si_time ≠ "" then " " ++ rule.si_time else "")
               else "")
          let pods1 :=
            if podCols ≠ [] then
              (podCols.filter (fun pj => cellAt row pj.2 ≠ "")).map (fun pj => pj.1)
            else
              POD_LIST.filter (fun pod => isInfixChars pod.data (pyUpper (joinSpace row)))
          let pods2 := if pods1 = [] then ["HONG KONG"] else pods1
          pods2.map (fun pod =>
            { pol := "HAIPHONG", pod := pod, vessel := vessel, voyage := voyage,
              etd := etdStr, eta := etaStr, tt := ttStr, cy := cuts.1, si := cuts.2 })

/-! ## IAL scrape rows (src/app.py lines 810-849) -/

def ialTT (ttRaw : String) : String :=
  let tt := trimStr ttRaw
  if tt ≠ "" ∧ allDigits (firstToken tt.data) = true ∧ containsStr (lowerStr tt) "day" = false
  then tt ++ " Days"
  else tt

/-- One result-table row of scrape_ial, taking the cell texts; a failed
year/month parse leaves the row in (try/except pass). -/
def ialRow (year month : Nat) (pod vesselC voyageC etdC etaC ttC : String) : Option SRec :=
  let vessel := trimStr vesselC
  let voyage := trimStr voyageC
  let etdRaw := trimStr etdC
  let etaRaw := trimStr etaC
  if vessel = "" ∨ etdRaw = "" then none
  else
    let etdStr := safe_date_str etdRaw
    let etaStr := safe_date_str etaRaw
    let out :=
      some { pol := "HAIPHONG", pod := pod, vessel := vessel, voyage := voyage,
             etd := etdStr, eta := etaStr, tt := ialTT (trimStr ttC), cy := "", si := "",
             carrier := "" }
    match tryFmt fmtYMDslash etdStr.data with
    | some t => if t.1 = year ∧ t.2.1 = month then out else none
    | none => out

/-! ## KMTC scrape table rows (src/app.py lines 999-1029) -/

def scrapeIsDup (rows : List SRec) (vessel voyage pod : String) : Bool :=
  rows.any (fun r => r.vessel = vessel && r.voyage = voyage && r.pod = pod)

/-- One table row of _extract_kmtc_table: field checks, year/month filter
(try/except pass), bare-integer T/T suffixing, then the in-session
duplicate suppression before appending. -/
def kmtcTableRow (year month : Nat) (pod : String) (rows : List SRec)
    (vesselC voyageC etdC etaC ttC cyC siC : String) : List SRec :=
  let vessel := trimStr vesselC
  let voyage := trimStr voyageC
  let etdStr := safe_date_str (trimStr etdC)
  let etaStr := safe_date_str (trimStr etaC)
  let tt := trimStr ttC
  if vessel = "" ∨ etdStr = "" then rows
  else
    let tt2 := if tt ≠ "" ∧ allDigits tt.data = true then tt ++ " Days" else tt
    let out :=
      if scrapeIsDup rows vessel voyage pod = true then rows
      else rows ++ [{ pol := "HAIPHONG", pod := pod, vessel := vessel, voyage := voyage,
                      etd := etdStr, eta := etaStr, tt := tt2,
                      cy := trimStr cyC, si := trimStr siC, carrier := "" }]
    match tryFmt fmtYMDslash etdStr.data with
    | some t => if t.1 = year ∧ t.2.1 = month then out else rows
    | none => out

/-! ## YML card emission (src/app.py lines 1450-1477)

The upstream regex extraction of vessel/voyage/dates/T/T/cut-offs from the
card text is collaborator-parsed free text; the embedding starts from those
extracted field values and covers the filter and duplicate-suppression
logic that follow. -/

def ymlEmit (year month : Nat) (pod : String) (rows : List SRec)
    (vessel voyage etdRaw etaRaw tt cy si : String) : List SRec :=
  let etdStr := safe_date_str etdRaw
  let etaStr := safe_date_str etaRaw
  if vessel = "" ∨ etdStr = "" then rows
  else
    match tryFmt fmtYMDslash etdStr.data with
    | none => rows
    | some t =>
      if t.1 ≠ year ∨ t.2.1 ≠ month then rows
      else if scrapeIsDup rows vessel voyage pod = true then rows
      else rows ++ [{ pol := "HAIPHONG", pod := pod, vessel := vessel, voyage := voyage,
                      etd := etdStr, eta := etaStr, tt := tt, cy := cy, si := si,
                      carrier := "" }]

/-! ## Session data store (src/app.py lines 1614-1633) -/

def Store := String → List SRec

def emptyStore : Store := fun _ => []

/-- store_data: stamp the Carrier column onto a non-empty batch, then
replace that carrier's stored frame wholesale. -/
def store_data (c : String) (df : List SRec) (s : Store) : Store :=
  fun c2 =>
    if c2 = c then (if df.isEmpty then df else df.map (fun r => { r with carrier := c }))
    else s c2

/-- get_all_data: concatenate the per-carrier frames in CARRIER_LIST order. -/
def allRecords (s : Store) : List SRec := (CARRIER_LIST.map s).flatten

def filterKey (l : List SRec) (k : String × String × String × String × String × String) :
    List SRec :=
  l.filter (fun r => natKey r = k)

def countKey (l : List SRec) (k : String × String × String × String × String × String) : Nat :=
  (filterKey l k).length

/-! ## Excel export data layout (src/app.py lines 1485-1548)

Only the data layout is modelled (sheet per POD, header row, ordering);
styling and the Summary sheet are presentation concerns. The cell write
str(val) if val else "" is the identity on the string fields. -/

def etdSortVal (r : SRec) : Option Int :=
  (tryFmt fmtYMDslash r.etd.data).map (fun t => daysFromCivil t.1 t.2.1 t.2.2)

/-- Ordering used by sort_values on the coerced ETD: parse failures (NaT)
sort last. -/
def keyLE (a b : SRec) : Bool :=
  match etdSortVal a, etdSortVal b with
  | some x, some y => decide (x ≤ y)
  | some _, none => true
  | none, some _ => false
  | none, none => true

def insertLE (x : SRec) : List SRec → List SRec
  | [] => [x]
  | y :: ys => if keyLE x y then x :: y :: ys else y :: insertLE x ys

def sortByEtd (l : List SRec) : List SRec := l.foldr insertLE []

def pyTitleAux : Bool → List Char → List Char
  | _, [] => []
  | prev, c :: rest =>
    let cased := c.isAlpha
    let c2 :=
      if cased && !prev then asciiUpperChar c
      else if cased && prev then asciiLowerChar c
      else c
    c2 :: pyTitleAux cased rest

def pyTitle (s : String) : String := strOf (pyTitleAux false s.data)

def fieldOf (r : SRec) (col : String) : String :=
  if col = "POL" then r.pol
  else if col = "POD" then r.pod
  else if col = "Vessel" then r.vessel
  else if col = "Voyage" then r.voyage
  else if col = "ETD" then r.etd
  else if col = "ETA" then r.eta
  else if col = "T/T Time" then r.tt
  else if col = "CY Cut-off" then r.cy
  else if col = "SI Cut-off" then r.si
  else ""

/-- export_to_excel data layout: one sheet per non-empty POD, records sorted
by parsed ETD (unparseable last), a header row of OUTPUT_COLS and one row of
those nine columns per record (the computed cols list that would add the
Carrier column is dead code in the source). -/
def exportSheets (data : List SRec) : List (String × List (List String)) :=
  POD_LIST.filterMap (fun pod =>
    let podRecs := data.filter (fun r => r.pod = pod)
    if podRecs.isEmpty then none
    else
      some (pyTitle pod,
            OUTPUT_COLS :: (sortByEtd podRecs).map (fun r => OUTPUT_COLS.map (fieldOf r))))

/-! ## Declarative view of the reference-table construction (for C8) -/

/-- The rows the rule loop actually visits, described declaratively: stop at
the first fully-empty row, keep only rows with a non-empty service-name
cell, pair each with its parsed rule. -/
def contribsOf (svcCol : Nat) (etdCol cyCol siCol : Option Nat)
    (rows : List (List String)) : List (String × CutRule) :=
  (rows.takeWhile (fun row => !rowAllEmpty row)).filterMap (fun row =>
    let svc := upperStr (cellAt row svcCol)
    if svc = "" then none else some (svc, ruleOfRow etdCol cyCol siCol row))

/-- Last contribution for a key wins (dict overwrite semantics). -/
def lastRuleFor : List (String × CutRule) → String → Option CutRule
  | [], _ => none
  | p :: rest, key =>
    match lastRuleFor rest key with
    | some v => some v
    | none => if p.1 = key then some p.2 else none

/-! ## Concrete sample data -/

/-- A reference region with a marker row followed by 30 contiguous non-empty
rule rows (service names S0..S29). -/
def capData : List (List String) :=
  ["SERVICE NAME", "CY CUT"] :: (List.range 30).map (fun i => ["S" ++ toString i, "10:00 MON"])

def recEver : SRec :=
  { carrier := "", pol := "HAIPHONG", pod := "HONG KONG", vessel := "EVER GIVEN",
    voyage := "001E", etd := "2026/03/10", eta := "", tt := "", cy := "10:00 FRI", si := "" }

def recEver2 : SRec := { recEver with cy := "12:00 SAT" }

/-- Every per-carrier frame in a store is stamped with its carrier. -/
def storeWF (s : Store) : Prop := ∀ c ∈ CARRIER_LIST, ∀ r ∈ s c, r.carrier = c

/-! ## Theorems -/

theorem dayToNum_bounds {k : String} {t : Int} (h : DAY_TO_NUM k = some t) :
    0 ≤ t ∧ t < 7 := by
  unfold DAY_TO_NUM at h
  repeat' split at h
  all_goals first
    | (injection h with h2; omega)
    | exact Option.noConfusion h

/-- C1: for every ETD and every weekday name whose (stripped, uppercased)
first three letters form one of the codes MON..SUN, days_back_from_etd
returns the most recent occurrence of that weekday on or before the ETD:
the result has the target weekday, is never after the ETD, and is at most
6 days before it; concretely, ETD 2026/03/14 (a Saturday) with FRI gives
2026/03/13 and with SAT gives 2026/03/14 itself. -/
theorem c1_cutoff_back_calculation :
    (∀ (etd : Int) (s : String) (t : Int), DAY_TO_NUM (dayKey s) = some t →
      pyWeekday (days_back_from_etd etd s) = t ∧
      days_back_from_etd etd s ≤ etd ∧
      etd - days_back_from_etd etd s ≤ 6) ∧
    pyWeekday (daysFromCivil 2026 3 14) = 5 ∧
    days_back_from_etd (daysFromCivil 2026 3 14) "FRI" = daysFromCivil 2026 3 13 ∧
    days_back_from_etd (daysFromCivil 2026 3 14) "SAT" = daysFromCivil 2026 3 14 := by
  refine ⟨?_, by decide, by decide, by decide⟩
  intro etd s t h
  have hb := dayToNum_bounds h
  simp only [days_back_from_etd, h]
  unfold pyWeekday
  omega

/-- Witness for C1 at a concrete input. -/
theorem c1_cutoff_back_calculation_witness :
    DAY_TO_NUM (dayKey "friday") = some 4 ∧
    (pyWeekday (days_back_from_etd 0 "friday") = 4 ∧
     days_back_from_etd 0 "friday" ≤ 0 ∧
     (0 : Int) - days_back_from_etd 0 "friday" ≤ 6) :=
  ⟨by decide, c1_cutoff_back_calculation.1 0 "friday" 4 (by decide)⟩

/-- C10 counterexample: the day name " FRI" (leading space) has first three
uppercased characters " FR", not a MON..SUN code, yet days_back_from_etd
does not return the ETD unchanged — the code strips whitespace first and
recognizes FRI, moving 2026/03/14 back to 2026/03/13. -/
theorem c10_counterexample :
    DAY_TO_NUM (strOf ((pyUpper " FRI".data).take 3)) = none ∧
    days_back_from_etd (daysFromCivil 2026 3 14) " FRI" = daysFromCivil 2026 3 13 ∧
    daysFromCivil 2026 3 13 ≠ daysFromCivil 2026 3 14 := by
  exact ⟨by decide, by decide, by decide⟩

/-- C10 amended: for every ETD and every day-name string whose first three
characters after stripping surrounding whitespace and uppercasing are not a
MON..SUN code, days_back_from_etd returns the ETD unchanged. -/
theorem c10_unrecognized_day (etd : Int) (s : String)
    (h : DAY_TO_NUM (dayKey s) = none) : days_back_from_etd etd s = etd := by
  simp only [days_back_from_etd, h]

/-- Witness for the amended C10 at a concrete input. -/
theorem c10_unrecognized_day_witness :
    DAY_TO_NUM (dayKey "N/A") = none ∧ days_back_from_etd 5 "N/A" = 5 :=
  ⟨by decide, c10_unrecognized_day 5 "N/A" (by decide)⟩

/-- C2: safe_date_str is total (a Lean function) and agrees with the spec's
description on every string: try YYYY/MM/DD, YYYY-MM-DD, DD/MM/YYYY,
MM/DD/YYYY, DD-MM-YYYY in that priority order, render the first success
canonically, otherwise return the trimmed original unchanged; with sample
normalizations, including one where the DD/MM priority decides. -/
theorem c2_date_normalizer :
    (∀ s : String, safe_date_str s = dateNormalizerSpec s) ∧
    safe_date_str "15/02/2026" = "2026/02/15" ∧
    safe_date_str "2026-02-15" = "2026/02/15" ∧
    safe_date_str "03/04/2026" = "2026/04/03" ∧
    safe_date_str " not a date " = "not a date" := by
  refine ⟨?_, by decide, by decide, by decide, by decide⟩
  intro s
  unfold safe_date_str dateNormalizerSpec specFormats
  simp only [List.findSome?_cons, List.findSome?_nil]
  cases h1 : tryFmt fmtYMDslash (trimStr s).data with
  | some t => simp [h1]
  | none =>
    cases h2 : tryFmt fmtYMDdash (trimStr s).data with
    | some t => simp [h1, h2]
    | none =>
      cases h3 : tryFmt fmtDMYslash (trimStr s).data with
      | some t => simp [h1, h2, h3]
      | none =>
        cases h4 : tryFmt fmtMDYslash (trimStr s).data with
        | some t => simp [h1, h2, h3, h4]
        | none =>
          cases h5 : tryFmt fmtDMYdash (trimStr s).data with
          | some t => simp [h1, h2, h3, h4, h5]
          | none => simp [h1, h2, h3, h4, h5]

theorem filterKey_append (l1 l2 : List SRec) (k) :
    filterKey (l1 ++ l2) k = filterKey l1 k ++ filterKey l2 k := by
  simp [filterKey, List.filter_append]

theorem filterKey_eq_nil_of_other_carrier {l : List SRec} {c2 : String}
    (hall : ∀ r ∈ l, r.carrier = c2) {k : String × String × String × String × String × String}
    (hk : k.1 ≠ c2) : filterKey l k = [] := by
  rw [filterKey, List.filter_eq_nil_iff]
  intro r hr
  have := hall r hr
  simp only [natKey, decide_eq_true_eq]
  intro hkey
  apply hk
  rw [← hkey]
  exact this

/-- C3 counterexample: store_data applies no natural-key dedup — storing a
single batch that holds the same record twice leaves two records sharing one
natural key in the merged dataset, so the store does not enforce at-most-one
record per natural key. -/
theorem c3_counterexample :
    countKey (allRecords (store_data "CNC" [recEver, recEver] emptyStore))
      (natKey { recEver with carrier := "CNC" }) = 2 := by decide

/-- C3 amended: store_data replaces the named carrier's frame wholesale
(stamping the carrier onto each record); hence for batches of one record,
add([A]) then add([A']) with A' sharing A's key fields leaves exactly one
record with that natural key — A' itself, carrying A''s cy_cutoff — and
adding the same record twice leaves exactly one record with its key.
Duplicates inside a single batch are, however, kept (see the counterexample). -/
theorem storeWF_store_data (c : String) (df : List SRec) {s : Store} (hwf : storeWF s) :
    storeWF (store_data c df s) := by
  intro c2 hc2 r hr
  unfold store_data at hr
  by_cases h : c2 = c
  · subst h
    rw [if_pos rfl] at hr
    by_cases hemp : df.isEmpty
    · rw [if_pos hemp] at hr
      have hdf : df = [] := by
        cases df with
        | nil => rfl
        | cons a l => simp [List.isEmpty] at hemp
      subst hdf
      exact absurd hr (List.not_mem_nil r)
    · rw [if_neg hemp] at hr
      simp only [List.mem_map] at hr
      obtain ⟨a, _, rfl⟩ := hr
      rfl
  · rw [if_neg h] at hr
    exact hwf c2 hc2 r hr

/-- Storing a one-record batch under carrier c leaves exactly that record as
the sole holder of its natural key in the merged dataset. -/
theorem store_single (s : Store) (c : String) (X : SRec)
    (hc : c ∈ CARRIER_LIST) (hwf : storeWF s) :
    filterKey (allRecords (store_data c [X] s)) (natKey { X with carrier := c })
      = [{ X with carrier := c }] := by
  have hother : ∀ c2, c2 ∈ CARRIER_LIST → c2 ≠ c →
      filterKey (s c2) (natKey { X with carrier := c }) = [] := by
    intro c2 hmem hne
    exact filterKey_eq_nil_of_other_carrier (hwf c2 hmem) (fun h => hne h.symm)
  have hc2 : c = "CNC" ∨ c = "TSL" ∨ c = "IAL" ∨ c = "KMTC" ∨ c = "YML" := by
    simpa [CARRIER_LIST] using hc
  have hframe : ∀ c2, store_data c [X] s c2 =
      if c2 = c then [{ X with carrier := c }] else s c2 := by
    intro c2
    unfold store_data
    by_cases h : c2 = c
    · rw [if_pos h, if_pos h]
      simp [List.isEmpty]
    · rw [if_neg h, if_neg h]
  rcases hc2 with rfl | rfl | rfl | rfl | rfl
  · simp only [allRecords, CARRIER_LIST, List.map_cons, List.map_nil, List.flatten_cons,
      List.flatten_nil, List.append_nil, hframe]
    simp only [String.reduceEq, reduceIte]
    rw [filterKey_append, filterKey_append, filterKey_append, filterKey_append,
        hother "TSL" (by decide) (by decide), hother "IAL" (by decide) (by decide),
        hother "KMTC" (by decide) (by decide), hother "YML" (by decide) (by decide)]
    simp [filterKey]
  · simp only [allRecords, CARRIER_LIST, List.map_cons, List.map_nil, List.flatten_cons,
      List.flatten_nil, List.append_nil, hframe]
    simp only [String.reduceEq, reduceIte]
    rw [filterKey_append, filterKey_append, filterKey_append, filterKey_append,
        hother "CNC" (by decide) (by decide), hother "IAL" (by decide) (by decide),
        hother "KMTC" (by decide) (by decide), hother "YML" (by decide) (by decide)]
    simp [filterKey]
  · simp only [allRecords, CARRIER_LIST, List.map_cons, List.map_nil, List.flatten_cons,
      List.flatten_nil, List.append_nil, hframe]
    simp only [String.reduceEq, reduceIte]
    rw [filterKey_append, filterKey_append, filterKey_append, filterKey_append,
        hother "CNC" (by decide) (by decide), hother "TSL" (by decide) (by decide),
        hother "KMTC" (by decide) (by decide), hother "YML" (by decide) (by decide)]
    simp [filterKey]
  · simp only [allRecords, CARRIER_LIST, List.map_cons, List.map_nil, List.flatten_cons,
      List.flatten_nil, List.append_nil, hframe]
    simp only [String.reduceEq, reduceIte]
    rw [filterKey_append, filterKey_append, filterKey_append, filterKey_append,
        hother "CNC" (by decide) (by decide), hother "TSL" (by decide) (by decide),
        hother "IAL" (by decide) (by decide), hother "YML" (by decide) (by decide)]
    simp [filterKey]
  · simp only [allRecords, CARRIER_LIST, List.map_cons, List.map_nil, List.flatten_cons,
      List.flatten_nil, List.append_nil, hframe]
    simp only [String.reduceEq, reduceIte]
    rw [filterKey_append, filterKey_append, filterKey_append, filterKey_append,
        hother "CNC" (by decide) (by decide), hother "TSL" (by decide) (by decide),
        hother "IAL" (by decide) (by decide), hother "KMTC" (by decide) (by decide)]
    simp [filterKey]

/-- C3 amended: store_data replaces the named carrier's frame wholesale
(stamping the carrier onto each record); hence for batches of one record,
add([A]) then add([A']) with A' sharing A's key fields leaves exactly one
record with that natural key — A' itself, carrying A''s cy_cutoff — and
adding the same record twice leaves exactly one record with its key.
Duplicates inside a single batch are, however, kept (see the counterexample). -/
theorem c3_keep_last (s : Store) (c : String) (A B : SRec)
    (hc : c ∈ CARRIER_LIST) (hwf : storeWF s)
    (_h1 : A.pol = B.pol) (_h2 : A.pod = B.pod) (_h3 : A.vessel = B.vessel)
    (_h4 : A.voyage = B.voyage) (_h5 : A.etd = B.etd) :
    filterKey (allRecords (store_data c [B] (store_data c [A] s)))
        (natKey { B with carrier := c }) = [{ B with carrier := c }] ∧
    filterKey (allRecords (store_data c [A] (store_data c [A] s)))
        (natKey { A with carrier := c }) = [{ A with carrier := c }] := by
  have hwf2 : storeWF (store_data c [A] s) := storeWF_store_data c [A] hwf
  exact ⟨store_single (store_data c [A] s) c B hc hwf2,
         store_single (store_data c [A] s) c A hc hwf2⟩

/-- Witness for the amended C3: two one-record batches sharing the natural
key but differing in cy_cutoff; the store ends holding exactly the second. -/
theorem c3_keep_last_witness :
    filterKey (allRecords (store_data "CNC" [recEver2] (store_data "CNC" [recEver] emptyStore)))
        (natKey { recEver2 with carrier := "CNC" }) = [{ recEver2 with carrier := "CNC" }] ∧
    filterKey (allRecords (store_data "CNC" [recEver] (store_data "CNC" [recEver] emptyStore)))
        (natKey { recEver with carrier := "CNC" }) = [{ recEver with carrier := "CNC" }] :=
  c3_keep_last emptyStore "CNC" recEver recEver2 (by decide)
    (by intro c2 _ r hr; exact absurd hr (List.not_mem_nil r))
    rfl rfl rfl rfl rfl

/-- C9: every record emitted by the CNC, TSL, IAL, KMTC and YML row
processors has its POL field set to the literal "HAIPHONG", whatever the
origin text in the source data. -/
theorem c9_pol_haiphong :
    (∀ pol pod v vy etd eta tt cy si r,
        cncRow pol pod v vy etd eta tt cy si = some r → r.pol = "HAIPHONG") ∧
    (∀ cs cv cvoy ce cea pcs rules sd ed row r,
        r ∈ tslProcessRow cs cv cvoy ce cea pcs rules sd ed row → r.pol = "HAIPHONG") ∧
    (∀ y m pod v vy etd eta tt r,
        ialRow y m pod v vy etd eta tt = some r → r.pol = "HAIPHONG") ∧
    (∀ y m pod rows v vy etd eta tt cy si r,
        r ∈ kmtcTableRow y m pod rows v vy etd eta tt cy si → r ∈ rows ∨ r.pol = "HAIPHONG") ∧
    (∀ y m pod rows v vy etd eta tt cy si r,
        r ∈ ymlEmit y m pod rows v vy etd eta tt cy si → r ∈ rows ∨ r.pol = "HAIPHONG") := by
  refine ⟨?_, ?_, ?_, ?_, ?_⟩
  · intro pol pod v vy etd eta tt cy si r h
    simp only [cncRow] at h
    repeat' split at h
    all_goals first
      | exact Option.noConfusion h
      | (injection h with h2; subst h2; rfl)
  · intro cs cv cvoy ce cea pcs rules sd ed row r h
    simp only [tslProcessRow] at h
    repeat' split at h
    all_goals first
      | exact absurd h (List.not_mem_nil r)
      | (obtain ⟨a, _, rfl⟩ := List.mem_map.mp h; rfl)
  · intro y m pod v vy etd eta tt r h
    simp only [ialRow] at h
    repeat' split at h
    all_goals first
      | exact Option.noConfusion h
      | (injection h with h2; subst h2; rfl)
  · intro y m pod rows v vy etd eta tt cy si r h
    simp only [kmtcTableRow] at h
    repeat' split at h
    all_goals first
      | exact Or.inl h
      | (rcases List.mem_append.mp h with h2 | h2
         · exact Or.inl h2
         · rw [List.mem_singleton] at h2; subst h2; right; rfl)
  · intro y m pod rows v vy etd eta tt cy si r h
    simp only [ymlEmit] at h
    repeat' split at h
    all_goals first
      | exact Or.inl h
      | (rcases List.mem_append.mp h with h2 | h2
         · exact Or.inl h2
         · rw [List.mem_singleton] at h2; subst h2; right; rfl)

/-- Witness for C9: a concrete CNC row whose emitted record carries
POL = "HAIPHONG". -/
theorem c9_pol_haiphong_witness :
    ({ carrier := "", pol := "HAIPHONG", pod := "HONG KONG", vessel := "EVER GIVEN",
       voyage := "001E", etd := "2026/03/10", eta := "", tt := "", cy := "", si := "" } :
        SRec).pol = "HAIPHONG" :=
  c9_pol_haiphong.1 "HAIPHONG" "HONG KONG" "EVER GIVEN" "001E" "2026/03/10" "" "" "" ""
    { carrier := "", pol := "HAIPHONG", pod := "HONG KONG", vessel := "EVER GIVEN",
      voyage := "001E", etd := "2026/03/10", eta := "", tt := "", cy := "", si := "" }
    (by decide)

/-- C4 counterexample: a CNC CSV data row whose vessel cell resolves to the
empty string (here a blank cell) but whose POD and origin pass the filters
is NOT skipped — parse_cnc has no vessel check and emits a record with an
empty vessel. -/
theorem c4_counterexample :
    (cncRow "HAIPHONG" "HONG KONG" " " "V001" "2026/03/10" "" "" "" "").map SRec.vessel
      = some "" := by decide

/-- C4 amended: the TSL, IAL, KMTC and YML row paths silently skip a data
row whose resolved vessel value is empty (no record, no error), but the CNC
path performs no vessel check and emits a record for such a row whenever the
POD/origin filters pass. -/
theorem c4_vessel_skip :
    (∀ cs cv cvoy ce cea pcs rules sd ed row, cellAt row cv = "" →
        tslProcessRow cs cv cvoy ce cea pcs rules sd ed row = []) ∧
    (∀ y m pod v vy etd eta tt, trimStr v = "" →
        ialRow y m pod v vy etd eta tt = none) ∧
    (∀ y m pod rows v vy etd eta tt cy si, trimStr v = "" →
        kmtcTableRow y m pod rows v vy etd eta tt cy si = rows) ∧
    (∀ y m pod rows v vy etd eta tt cy si, v = "" →
        ymlEmit y m pod rows v vy etd eta tt cy si = rows) ∧
    (∀ pod v vy etd eta tt cy si, normalize_pod pod ∈ POD_LIST →
        (cncRow "HAIPHONG" pod v vy etd eta tt cy si).isSome = true) := by
  refine ⟨?_, ?_, ?_, ?_, ?_⟩
  · intro cs cv cvoy ce cea pcs rules sd ed row h
    simp [tslProcessRow, h]
  · intro y m pod v vy etd eta tt h
    simp [ialRow, h]
  · intro y m pod rows v vy etd eta tt cy si h
    simp [kmtcTableRow, h]
  · intro y m pod rows v vy etd eta tt cy si h
    simp [ymlEmit, h]
  · intro pod v vy etd eta tt cy si h
    have hhp : containsStr (upperStr (trimStr "HAIPHONG")) "HAIPHONG" = true := by decide
    simp [cncRow, h, hhp]

/-- Witness for the amended C4 at concrete inputs. -/
theorem c4_vessel_skip_witness :
    cellAt ["a", " "] 1 = "" ∧
    tslProcessRow none 1 2 3 4 [] [] 0 0 ["a", " "] = [] ∧
    normalize_pod "shekou" ∈ POD_LIST ∧
    (cncRow "HAIPHONG" "shekou" "" "V1" "" "" "" "" "").isSome = true :=
  ⟨by decide, c4_vessel_skip.1 none 1 2 3 4 [] [] 0 0 ["a", " "] (by decide), by decide,
   c4_vessel_skip.2.2.2.2 "shekou" "" "V1" "" "" "" "" "" (by decide)⟩

/-- C5 counterexample: explicit transit values are not suffixed "exactly
when bare integers". The CNC path suffixes ANY non-empty value not already
ending in day/days ("abc" becomes "abc days" instead of staying "abc"), and
the IAL path tests only the first token and appends " Days" ("5 hours"
becomes "5 hours Days"). -/
theorem c5_counterexample :
    cncTT "abc" = "abc days" ∧ ialTT "5 hours" = "5 hours Days" :=
  ⟨by decide, by decide⟩

/-- C5 amended: per-path transit normalization. CNC: a non-empty explicit
value not ending (case-insensitively) in "day"/"days" — integer or not —
gets " days" appended, anything else is left as given. IAL: " Days" is
appended exactly when the first whitespace token is all digits and "day"
does not occur case-insensitively. TSL: a bracketed "(n days)" annotation
in the raw ETA wins verbatim; otherwise, when both dates parsed, the
ETA − ETD difference is emitted as "n days" only when non-negative; blank
in every remaining case. -/
theorem c5_transit_time :
    (∀ s : String,
      (s ≠ "" → endsWithStr (lowerStr s) "day" = false → endsWithStr (lowerStr s) "days" = false →
        cncTT s = s ++ " days") ∧
      ((s = "" ∨ endsWithStr (lowerStr s) "day" = true ∨ endsWithStr (lowerStr s) "days" = true) →
        cncTT s = s)) ∧
    (∀ s : String,
      (trimStr s ≠ "" → allDigits (firstToken (trimStr s).data) = true →
        containsStr (lowerStr (trimStr s)) "day" = false → ialTT s = trimStr s ++ " Days") ∧
      ((trimStr s = "" ∨ allDigits (firstToken (trimStr s).data) = false ∨
          containsStr (lowerStr (trimStr s)) "day" = true) → ialTT s = trimStr s)) ∧
    (∀ (etdD : Int) (etaRaw etaStr : String) (n : List Char),
      ttBracketSearch etaRaw.data = some n → tslTT etdD etaRaw etaStr = strOf n ++ " days") ∧
    (∀ (etdD : Int) (etaRaw etaStr : String) (etaD : Int),
      ttBracketSearch etaRaw.data = none → parseDay etaStr = some etaD →
        tslTT etdD etaRaw etaStr =
          (if etaD - etdD ≥ 0 then toString (etaD - etdD).toNat ++ " days" else "")) ∧
    (∀ (etdD : Int) (etaRaw etaStr : String),
      ttBracketSearch etaRaw.data = none → parseDay etaStr = none →
        tslTT etdD etaRaw etaStr = "") := by
  refine ⟨?_, ?_, ?_, ?_, ?_⟩
  · intro s
    constructor
    · intro h1 h2 h3
      simp [cncTT, h1, h2, h3]
    · intro h
      rcases h with rfl | h | h
      · simp [cncTT]
      · simp [cncTT, h]
      · simp [cncTT, h]
  · intro s
    constructor
    · intro h1 h2 h3
      simp [ialTT, h1, h2, h3]
    · intro h
      rcases h with h | h | h <;> simp [ialTT, h]
  · intro etdD etaRaw etaStr n h
    simp [tslTT, h]
  · intro etdD etaRaw etaStr etaD h1 h2
    have hne : etaStr ≠ "" := by
      intro he
      rw [he] at h2
      rw [show parseDay "" = none from rfl] at h2
      exact Option.noConfusion h2
    simp [tslTT, h1, h2, hne]
  · intro etdD etaRaw etaStr h1 h2
    by_cases he : etaStr = "" <;> simp [tslTT, h1, h2, he]

/-- Witness for the amended C5 at concrete inputs; 20528 is 2026/03/16. -/
theorem c5_transit_time_witness :
    cncTT "7" = "7" ++ " days" ∧
    ialTT " 12 " = trimStr " 12 " ++ " Days" ∧
    tslTT 20526 "2026/03/16 (2 days)" "" = strOf ['2'] ++ " days" ∧
    tslTT 20524 "x" "2026/03/16" =
      (if (20528 : Int) - 20524 ≥ 0 then toString ((20528 : Int) - 20524).toNat ++ " days"
       else "") ∧
    tslTT 20524 "x" "nope" = "" :=
  ⟨(c5_transit_time.1 "7").1 (by decide) (by decide) (by decide),
   (c5_transit_time.2.1 " 12 ").1 (by decide) (by decide) (by decide),
   c5_transit_time.2.2.1 20526 "2026/03/16 (2 days)" "" ['2'] (by decide),
   c5_transit_time.2.2.2.1 20524 "x" "2026/03/16" 20528 (by decide) (by decide),
   c5_transit_time.2.2.2.2 20524 "x" "nope" (by decide) (by decide)⟩

/-- C7 counterexample: the KMTC table adapter drops a new row that matches a
gathered row on (vessel, voyage, pod) alone, even though their ETDs — hence
their natural keys — differ: with recEver (ETD 2026/03/10) already gathered,
the same vessel/voyage sailing on 2026/03/12 is suppressed. -/
theorem c7_counterexample :
    kmtcTableRow 2026 3 "HONG KONG" [recEver] "EVER GIVEN" "001E" "2026/03/12" "" "" "" ""
      = [recEver] ∧
    recEver.etd ≠ "2026/03/12" :=
  ⟨by decide, by decide⟩

/-- C7 amended: within a scrape session the KMTC and YML adapters suppress
duplicates on the PARTIAL key (vessel, voyage, pod), not the store's full
natural key: the dup test holds iff some gathered row agrees on that triple,
and — once the vessel/ETD checks and the year/month filter pass — the new
row is dropped exactly when the test holds. -/
theorem c7_partial_key_dedup :
    (∀ (rows : List SRec) (vessel voyage pod : String),
      scrapeIsDup rows vessel voyage pod = true ↔
        ∃ r ∈ rows, r.vessel = vessel ∧ r.voyage = voyage ∧ r.pod = pod) ∧
    (∀ (y m : Nat) (pod : String) (rows : List SRec) (vC vyC etdC etaC ttC cyC siC : String),
      trimStr vC ≠ "" → safe_date_str (trimStr etdC) ≠ "" →
      (∀ t, tryFmt fmtYMDslash (safe_date_str (trimStr etdC)).data = some t →
        t.1 = y ∧ t.2.1 = m) →
      (scrapeIsDup rows (trimStr vC) (trimStr vyC) pod = true →
        kmtcTableRow y m pod rows vC vyC etdC etaC ttC cyC siC = rows) ∧
      (scrapeIsDup rows (trimStr vC) (trimStr vyC) pod = false →
        kmtcTableRow y m pod rows vC vyC etdC etaC ttC cyC siC ≠ rows)) ∧
    (∀ (y m : Nat) (pod : String) (rows : List SRec)
        (vessel voyage etdRaw etaRaw tt cy si : String) (t0 : Nat × Nat × Nat),
      vessel ≠ "" → safe_date_str etdRaw ≠ "" →
      tryFmt fmtYMDslash (safe_date_str etdRaw).data = some t0 → t0.1 = y → t0.2.1 = m →
      (scrapeIsDup rows vessel voyage pod = true →
        ymlEmit y m pod rows vessel voyage etdRaw etaRaw tt cy si = rows) ∧
      (scrapeIsDup rows vessel voyage pod = false →
        ymlEmit y m pod rows vessel voyage etdRaw etaRaw tt cy si ≠ rows)) := by
  have happ : ∀ (rows : List SRec) (r0 : SRec), rows ++ [r0] ≠ rows := by
    intro rows r0 heq
    have hlen := congrArg List.length heq
    simp at hlen
  refine ⟨?_, ?_, ?_⟩
  · intro rows vessel voyage pod
    simp [scrapeIsDup, and_assoc]
  · intro y m pod rows vC vyC etdC etaC ttC cyC siC h1 h2 h3
    constructor
    · intro hdup
      cases hm : tryFmt fmtYMDslash (safe_date_str (trimStr etdC)).data with
      | some t =>
        have ht := h3 t hm
        simp [kmtcTableRow, h1, h2, hm, ht.1, ht.2, hdup]
      | none => simp [kmtcTableRow, h1, h2, hm, hdup]
    · intro hdup
      cases hm : tryFmt fmtYMDslash (safe_date_str (trimStr etdC)).data with
      | some t =>
        have ht := h3 t hm
        simp [kmtcTableRow, h1, h2, hm, ht.1, ht.2, hdup, happ]
      | none => simp [kmtcTableRow, h1, h2, hm, hdup, happ]
  · intro y m pod rows vessel voyage etdRaw etaRaw tt cy si t0 h1 h2 hm ht1 ht2
    constructor
    · intro hdup
      simp [ymlEmit, h1, h2, hm, ht1, ht2, hdup]
    · intro hdup
      simp [ymlEmit, h1, h2, hm, ht1, ht2, hdup, happ]

/-- Witness for the amended C7 at concrete inputs. -/
theorem c7_partial_key_dedup_witness :
    (scrapeIsDup [recEver] "EVER GIVEN" "001E" "HONG KONG" = true ↔
      ∃ r ∈ [recEver], r.vessel = "EVER GIVEN" ∧ r.voyage = "001E" ∧ r.pod = "HONG KONG") ∧
    kmtcTableRow 2026 3 "HONG KONG" [] "NEW SHIP" "002W" "2026/03/12" "" "" "" "" ≠ [] :=
  ⟨c7_partial_key_dedup.1 [recEver] "EVER GIVEN" "001E" "HONG KONG",
   (c7_partial_key_dedup.2.1 2026 3 "HONG KONG" [] "NEW SHIP" "002W" "2026/03/12" "" "" "" ""
      (by decide) (by decide)
      (fun t ht => by
        rw [show tryFmt fmtYMDslash (safe_date_str (trimStr "2026/03/12")).data
              = some (2026, 3, 12) from by decide] at ht
        injection ht with h
        subst h
        exact ⟨rfl, rfl⟩)).2 (by decide)⟩

/-- C6 (code bug): on a merged dataset whose records do carry carriers, the
export layout produces one sheet per destination port with records in ETD
ascending order (unparseable last) — but each sheet holds only the nine
OUTPUT_COLS; the caller-supplied Carrier column is never written (the cols
list that would include it is computed and then unused in the source). -/
theorem c6_export_layout :
    exportSheets
        [{ recEver with carrier := "TSL", vessel := "X", etd := "soon" },
         { recEver with carrier := "CNC", etd := "2026/03/12" },
         { recEver with carrier := "YML" }]
      = [("Hong Kong",
          [["POL", "POD", "Vessel", "Voyage", "ETD", "ETA", "T/T Time", "CY Cut-off",
            "SI Cut-off"],
           ["HAIPHONG", "HONG KONG", "EVER GIVEN", "001E", "2026/03/10", "", "", "10:00 FRI", ""],
           ["HAIPHONG", "HONG KONG", "EVER GIVEN", "001E", "2026/03/12", "", "", "10:00 FRI", ""],
           ["HAIPHONG", "HONG KONG", "X", "001E", "soon", "", "", "10:00 FRI", ""]])] ∧
    "Carrier" ∉ OUTPUT_COLS :=
  ⟨by decide, by decide⟩

theorem lookupRule_upsert_self (acc : List (String × CutRule)) (k : String) (v : CutRule) :
    lookupRule (upsertRule acc k v) k = some v := by
  induction acc with
  | nil => simp [upsertRule, lookupRule]
  | cons p rest ih =>
    by_cases h : p.1 = k
    · simp [upsertRule, lookupRule, h]
    · simp [upsertRule, lookupRule, h, ih]

theorem lookupRule_upsert_other (acc : List (String × CutRule)) (k : String) (v : CutRule)
    (k2 : String) (h : k2 ≠ k) :
    lookupRule (upsertRule acc k v) k2 = lookupRule acc k2 := by
  induction acc with
  | nil => simp [upsertRule, lookupRule, Ne.symm h]
  | cons p rest ih =>
    by_cases hp : p.1 = k
    · simp [upsertRule, lookupRule, hp, Ne.symm h]
    · simp [upsertRule, lookupRule, hp, ih]

/-- The rule-reading loop computed declaratively: a lookup in the built
rules returns the LAST contribution for the key among the visited rows
(those before the first fully-empty row, up to the fuel bound, with a
non-empty service cell), falling back to the accumulator. -/
theorem lookup_readRuleRows (svcCol : Nat) (etdCol cyCol siCol : Option Nat) :
    ∀ (rows : List (List String)) (fuel : Nat) (acc : List (String × CutRule)) (key : String),
    lookupRule (readRuleRows svcCol etdCol cyCol siCol fuel rows acc) key =
      match lastRuleFor (contribsOf svcCol etdCol cyCol siCol (rows.take fuel)) key with
      | some v => some v
      | none => lookupRule acc key := by
  intro rows
  induction rows with
  | nil =>
    intro fuel acc key
    cases fuel <;> simp [readRuleRows, contribsOf, lastRuleFor]
  | cons row rest ih =>
    intro fuel acc key
    cases fuel with
    | zero => simp [readRuleRows, contribsOf, lastRuleFor]
    | succ f =>
      by_cases hemp : rowAllEmpty row
      · simp [readRuleRows, contribsOf, lastRuleFor, hemp, List.take_succ_cons]
      · by_cases hsvc : upperStr (cellAt row svcCol) = ""
        · simp [readRuleRows, contribsOf, hemp, hsvc, List.take_succ_cons, ih]
        · have hstep : readRuleRows svcCol etdCol cyCol siCol (f + 1) (row :: rest) acc
              = readRuleRows svcCol etdCol cyCol siCol f rest
                  (upsertRule acc (upperStr (cellAt row svcCol))
                    (ruleOfRow etdCol cyCol siCol row)) := by
            simp [readRuleRows, hemp, hsvc]
          have hcontrib : contribsOf svcCol etdCol cyCol siCol ((row :: rest).take (f + 1))
              = (upperStr (cellAt row svcCol), ruleOfRow etdCol cyCol siCol row)
                  :: contribsOf svcCol etdCol cyCol siCol (rest.take f) := by
            simp [contribsOf, hemp, hsvc, List.take_succ_cons]
          rw [hstep, ih, hcontrib]
          cases hl : lastRuleFor (contribsOf svcCol etdCol cyCol siCol (rest.take f)) key with
          | some v => simp [lastRuleFor, hl]
          | none =>
            by_cases hk : upperStr (cellAt row svcCol) = key
            · simp [lastRuleFor, hl, hk, lookupRule_upsert_self]
            · simp [lastRuleFor, hl, hk,
                lookupRule_upsert_other _ _ _ _ (fun he => hk he.symm)]

/-- C8 counterexample, both deviations from the claim. (a) A non-empty
reference row whose service-name cell is empty contributes NO rule. (b) The
loop visits at most 29 rows after the marker: with 30 contiguous non-empty
rule rows, the 30th (service S29) contributes nothing even though no
fully-empty row precedes it. -/
theorem c8_counterexample :
    (buildServiceRules [["SERVICE NAME", "CY CUT", "SI/VGM"], ["", "24:00 SAT", ""]] = [] ∧
     rowAllEmpty ["", "24:00 SAT", ""] = false) ∧
    (lookupRule (buildServiceRules capData) "S29" = none ∧
     (lookupRule (buildServiceRules capData) "S28").isSome = true ∧
     capData.getD 30 [] = ["S29", "10:00 MON"] ∧
     capData.all (fun row => !rowAllEmpty row) = true) :=
  ⟨⟨by decide, by decide⟩, ⟨by decide, by decide, by decide, by decide⟩⟩

/-- C8 amended: once the marker row is located, the built rule table answers
every lookup with the LAST contribution for that key among the at most 29
rows following the marker, stopping at the first fully-empty row and
skipping rows with an empty service-name cell; each contribution is keyed by
its uppercased service name and parses its cut-off cells into (time, weekday)
pairs by locating an HH:MM pattern and a bounded MON..SUN token, either
component empty when absent (concrete parses included). -/
theorem c8_reference_table :
    (∀ (data : List (List String)) (i : Nat), findMarkerIdx data = some i →
      ∀ key, lookupRule (buildServiceRules data) key =
        lastRuleFor
          (contribsOf (svcColOf ((data.getD i []).map upperStr))
            (etdColOf ((data.getD i []).map upperStr))
            (cyColOf ((data.getD i []).map upperStr))
            (siColOf ((data.getD i []).map upperStr))
            ((data.drop (i + 1)).take 29)) key) ∧
    parse_time_day "24:00 SAT" = ("24:00", "SAT") ∧
    parse_time_day "sat 9:00" = ("9:00", "SAT") ∧
    parse_time_day "FRI" = ("", "FRI") ∧
    parse_time_day "23:30" = ("23:30", "") ∧
    parse_time_day "SATURDAY" = ("", "") ∧
    parse_time_day "TBA" = ("", "") := by
  refine ⟨?_, by decide, by decide, by decide, by decide, by decide, by decide⟩
  intro data i h key
  unfold buildServiceRules
  rw [h]
  rw [lookup_readRuleRows]
  cases hl : lastRuleFor
      (contribsOf (svcColOf ((data.getD i []).map upperStr))
        (etdColOf ((data.getD i []).map upperStr))
        (cyColOf ((data.getD i []).map upperStr))
        (siColOf ((data.getD i []).map upperStr))
        ((data.drop (i + 1)).take 29)) key with
  | some v => simp [hl]
  | none => simp [hl, lookupRule]

/-- Witness for the amended C8 at a concrete sheet region. -/
theorem c8_reference_table_witness :
    findMarkerIdx [["x"], ["SERVICE NAME", "CY CUT"], ["JTH", "24:00 SAT"]] = some 1 ∧
    lookupRule (buildServiceRules [["x"], ["SERVICE NAME", "CY CUT"], ["JTH", "24:00 SAT"]]) "JTH"
      = lastRuleFor
          (contribsOf
            (svcColOf (([["x"], ["SERVICE NAME", "CY CUT"], ["JTH", "24:00 SAT"]].getD 1 []).map upperStr))
            (etdColOf (([["x"], ["SERVICE NAME", "CY CUT"], ["JTH", "24:00 SAT"]].getD 1 []).map upperStr))
            (cyColOf (([["x"], ["SERVICE NAME", "CY CUT"], ["JTH", "24:00 SAT"]].getD 1 []).map upperStr))
            (siColOf (([["x"], ["SERVICE NAME", "CY CUT"], ["JTH", "24:00 SAT"]].getD 1 []).map upperStr))
            (([["x"], ["SERVICE NAME", "CY CUT"], ["JTH", "24:00 SAT"]].drop 2).take 29)) "JTH" :=
  ⟨by decide,
   c8_reference_table.1 [["x"], ["SERVICE NAME", "CY CUT"], ["JTH", "24:00 SAT"]] 1
     (by decide) "JTH"⟩

end Shipping
